import Mathlib

/-!
A verification development for the stack layouting algorithm of the typst
document layout engine (`src/layout/stack.rs`).

Sizes are modelled as integers (`Int`); the geometry primitives
(`Size2D`, axis descriptors, generalize/specialize, anchors, `fits`) are
external library code of the repository and are modelled from the spec's
description of their contract.  The stack layouter itself
(`StackLayouter` and its operations) is translated directly from the
source file.
-/

namespace Typst

/- Sizes are plain numeric extents with ordinary arithmetic; the
repository's `Size` scalar is modelled as `Int`. -/

/-- A two-dimensional size, as in the repository's geometry library. -/
structure Size2D where
  x : Int
  y : Int
deriving DecidableEq, Repr

/-- Modelled from the spec: the zero extent. -/
def Size2D.zero : Size2D := ⟨0, 0⟩

/-- Modelled from the spec: construction from components. -/
def Size2D.new (x y : Int) : Size2D := ⟨x, y⟩

/-- Modelled from the spec: an extent purely along the y axis. -/
def Size2D.with_y (y : Int) : Size2D := ⟨0, y⟩

instance : Add Size2D := ⟨fun a b => ⟨a.x + b.x, a.y + b.y⟩⟩

instance : Sub Size2D := ⟨fun a b => ⟨a.x - b.x, a.y - b.y⟩⟩

/-- Modelled from the spec: componentwise maximum (`max_eq` in the
geometry library updates a size to the componentwise maximum). -/
def Size2D.max (a b : Size2D) : Size2D := ⟨Max.max a.x b.x, Max.max a.y b.y⟩

/-- Modelled from the spec: `Size2D::fits` of the geometry library —
whether `b` fits into `a`, componentwise. -/
def fits (a b : Size2D) : Bool := decide (b.x ≤ a.x) && decide (b.y ≤ a.y)

/-- Padding on the four sides of a rectangle (`SizeBox`). -/
structure SizeBox where
  left : Int
  top : Int
  right : Int
  bottom : Int
deriving DecidableEq, Repr

/-- Modelled from the spec: zero padding. -/
def SizeBox.zero : SizeBox := ⟨0, 0, 0, 0⟩

/-- Modelled from the spec: grow an extent by padding on all sides. -/
def Size2D.padded (s : Size2D) (p : SizeBox) : Size2D :=
  ⟨s.x + p.left + p.right, s.y + p.top + p.bottom⟩

/-- A physical axis direction. Modelled from the spec's axis geometry. -/
inductive Direction where
  | LeftToRight
  | RightToLeft
  | TopToBottom
  | BottomToTop
deriving DecidableEq, Repr

/-- Modelled from the spec: whether the direction runs horizontally. -/
def Direction.is_horizontal : Direction → Bool
  | .LeftToRight | .RightToLeft => true
  | _ => false

/-- Modelled from the spec: `factor()` is `±1` indicating physical growth
direction of an axis. -/
def Direction.factor : Direction → Int
  | .LeftToRight | .TopToBottom => 1
  | _ => -1

/-- Modelled from the spec: whether the axis grows positively. -/
def Direction.is_positive (d : Direction) : Bool := d.factor == 1

/-- Alignment along an axis. Modelled from the spec. -/
inductive Alignment where
  | Origin
  | Center
  | End
deriving DecidableEq, Repr

/-- One axis descriptor: direction, alignment policy, expansion flag.
Modelled from the spec's data model for axis descriptors. -/
structure LayoutAxis where
  axis : Direction
  alignment : Alignment
  expand : Bool
deriving DecidableEq, Repr

/-- Modelled from the spec: the alignment anchor of an extent along an
axis (start / center / end, direction-aware). -/
def LayoutAxis.anchor (a : LayoutAxis) (size : Int) : Int :=
  match a.alignment, a.axis.is_positive with
  | .Origin, true | .End, false => 0
  | .Center, _ => size / 2
  | .End, true | .Origin, false => size

/-- Modelled from the spec: the expansion flag of the axis. -/
def LayoutAxis.needs_expansion (a : LayoutAxis) : Bool := a.expand

/-- The axis pair: primary and secondary layouting axes. -/
structure LayoutAxes where
  primary : LayoutAxis
  secondary : LayoutAxis
deriving DecidableEq, Repr

/-- Modelled from the spec: map a specialized extent to generalized
coordinates (primary component first).  The transform swaps the
components exactly when the primary axis is vertical, and is its own
inverse (`specialize`). -/
def LayoutAxes.generalize (axes : LayoutAxes) (s : Size2D) : Size2D :=
  if axes.primary.axis.is_horizontal then s else ⟨s.y, s.x⟩

/-- Modelled from the spec: map a generalized extent back to specialized
coordinates; the mutual inverse of `generalize`. -/
def LayoutAxes.specialize (axes : LayoutAxes) (s : Size2D) : Size2D :=
  if axes.primary.axis.is_horizontal then s else ⟨s.y, s.x⟩

/-- Modelled from the spec: the per-axis anchor of a two-dimensional
extent (primary anchor of `x`, secondary anchor of `y`). -/
def LayoutAxes.anchor (axes : LayoutAxes) (s : Size2D) : Size2D :=
  ⟨axes.primary.anchor s.x, axes.secondary.anchor s.y⟩

/-- One caller-supplied candidate area (`LayoutSpace`): dimensions plus
padding.  Modelled from the spec. -/
structure LayoutSpace where
  dimensions : Size2D
  padding : SizeBox
deriving DecidableEq, Repr

/-- The degenerate zero area, used as the out-of-bounds default for list
indexing (the spec requires the area list to be non-empty, so in-contract
executions never see it). -/
def LayoutSpace.zero : LayoutSpace := ⟨Size2D.zero, SizeBox.zero⟩

/-- Modelled from the spec: the usable extent of an area, i.e. its
dimensions shrunk by the padding. -/
def LayoutSpace.usable (s : LayoutSpace) : Size2D :=
  ⟨s.dimensions.x - s.padding.left - s.padding.right,
   s.dimensions.y - s.padding.top - s.padding.bottom⟩

/-- Modelled from the spec: the start position (origin) of the usable
region inside the area. -/
def LayoutSpace.start (s : LayoutSpace) : Size2D := ⟨s.padding.left, s.padding.top⟩

/-- Modelled from the spec: the usable region of the area as an area of
its own, with no further padding. -/
def LayoutSpace.usable_space (s : LayoutSpace) : LayoutSpace :=
  ⟨s.usable, SizeBox.zero⟩

/-- A laid-out box: extent, nested placement instructions, debug flag.
The placement instructions pair an absolute position with nested content
(`LayoutActionList` holds `add_layout(pos, layout)` entries). -/
inductive Layout where
  | mk (dimensions : Size2D) (actions : List (Size2D × Layout)) (debug_render : Bool)

/-- The extent of a layout. -/
def Layout.dimensions : Layout → Size2D
  | .mk d _ _ => d

/-- The placement instructions of a layout. -/
def Layout.actions : Layout → List (Size2D × Layout)
  | .mk _ a _ => a

/-- The debug flag of a layout. -/
def Layout.debug_render : Layout → Bool
  | .mk _ _ b => b

/-- The tri-state spacing tracker (`LastSpacing`). -/
inductive LastSpacing where
  | Forbidden
  | Allowed
  | Soft (amount : Int)
deriving DecidableEq, Repr

/-- Source `LastSpacing::soft_or_zero`: the pending soft amount, or zero. -/
def LastSpacing.soft_or_zero : LastSpacing → Int
  | .Soft s => s
  | _ => 0

/-- The kind of spacing passed to `add_space` (`SpaceKind`). -/
inductive SpaceKind where
  | Hard
  | Soft
deriving DecidableEq, Repr

/-- The single error kind of the layouter. -/
structure LayoutError where
  message : String
deriving DecidableEq, Repr

/-- Source `lerr!("box does not fit into stack")`. -/
def overflowError : LayoutError := ⟨"box does not fit into stack"⟩

/-- One full candidate area in progress (`Space` in `stack.rs`). -/
structure Space where
  index : Nat
  hard : Bool
  actions : List (Size2D × Layout)
  combined_dimensions : Size2D

/-- Source `Space::new`. -/
def Space.new (index : Nat) (hard : Bool) : Space :=
  { index, hard, actions := [], combined_dimensions := Size2D.zero }

/-- The in-progress accumulation region inside one space (`Subspace` in
`stack.rs`; fields follow the constructor and the uses in the methods:
origin, anchor, factor, boxes, usable, dimensions, spacing state). -/
structure Subspace where
  origin : Size2D
  anchor : Size2D
  factor : Int
  boxes : List (Int × Int × Layout)
  usable : Size2D
  dimensions : Size2D
  space : LastSpacing

/-- Source `Subspace::new`. -/
def Subspace.new (origin usable : Size2D) (axes : LayoutAxes) : Subspace :=
  { origin
    anchor := axes.anchor usable
    factor := axes.secondary.axis.factor
    boxes := []
    usable := axes.generalize usable
    dimensions := Size2D.zero
    space := LastSpacing.Forbidden }

/-- The construction context (`StackContext`). -/
structure StackContext where
  spaces : List LayoutSpace
  axes : LayoutAxes
  expand : Bool

/-- The stack layouter state (`StackLayouter`). -/
structure StackLayouter where
  ctx : StackContext
  layouts : List Layout
  space : Space
  sub : Subspace

/-- Source `StackLayouter::new`. -/
def StackLayouter.new (ctx : StackContext) : StackLayouter :=
  let axes := ctx.axes
  let space := ctx.spaces.getD 0 LayoutSpace.zero
  { ctx
    layouts := []
    space := Space.new 0 true
    sub := Subspace.new space.start space.usable axes }

/-- Source `StackLayouter::space_is_empty`. -/
def StackLayouter.space_is_empty (l : StackLayouter) : Bool :=
  decide (l.space.combined_dimensions = Size2D.zero)
    && l.space.actions.isEmpty
    && decide (l.sub.dimensions = Size2D.zero)

/-- Source `StackLayouter::space_is_last`. -/
def StackLayouter.space_is_last (l : StackLayouter) : Bool :=
  l.space.index == l.ctx.spaces.length - 1

/-- Source `StackLayouter::next_space`. -/
def StackLayouter.next_space (l : StackLayouter) : Nat :=
  Min.min (l.space.index + 1) (l.ctx.spaces.length - 1)

/-- Source `StackLayouter::add_space`. -/
def StackLayouter.add_space (l : StackLayouter) (space : Int) (kind : SpaceKind) :
    StackLayouter :=
  if kind = SpaceKind.Soft then
    if l.sub.space ≠ LastSpacing.Forbidden then
      { l with sub := { l.sub with space := LastSpacing.Soft space } }
    else l
  else
    let sub :=
      if l.sub.dimensions.y + space > l.sub.usable.y then
        { l.sub with dimensions := { l.sub.dimensions with y := l.sub.usable.y } }
      else
        { l.sub with dimensions := { l.sub.dimensions with y := l.sub.dimensions.y + space } }
    let sub := if kind = SpaceKind.Hard then { sub with space := LastSpacing.Forbidden } else sub
    { l with sub }

/-- Source `StackLayouter::start_space`. -/
def StackLayouter.start_space (l : StackLayouter) (idx : Nat) (hard : Bool) :
    StackLayouter :=
  let l := { l with space := Space.new idx hard }
  let sp := l.ctx.spaces.getD idx LayoutSpace.zero
  { l with sub := Subspace.new sp.start sp.usable l.ctx.axes }

/-- Source `StackLayouter::finish_subspace`. -/
def StackLayouter.finish_subspace (l : StackLayouter) : StackLayouter :=
  let factor := l.ctx.axes.secondary.axis.factor
  let anchor :=
    l.ctx.axes.anchor l.sub.usable
      - l.ctx.axes.anchor (Size2D.with_y l.sub.dimensions.y)
  let actions := l.space.actions ++ l.sub.boxes.map (fun b =>
    (l.sub.origin + l.ctx.axes.specialize (anchor + Size2D.new (-b.2.1) (factor * b.1)),
     b.2.2))
  let dims1 :=
    if l.ctx.axes.primary.needs_expansion then
      { l.sub.dimensions with x := l.sub.usable.x }
    else l.sub.dimensions
  let dims2 :=
    if l.ctx.axes.secondary.needs_expansion then
      { dims1 with y := l.sub.usable.y }
    else dims1
  let sp := l.ctx.spaces.getD l.space.index LayoutSpace.zero
  let combined := Size2D.max l.space.combined_dimensions
    (l.sub.origin - sp.start + l.ctx.axes.specialize dims2)
  { l with
    space := { l.space with actions := actions, combined_dimensions := combined }
    sub := { l.sub with boxes := [], dimensions := dims2 } }

/-- Source `StackLayouter::finish_space`. -/
def StackLayouter.finish_space (l : StackLayouter) (hard : Bool) : StackLayouter :=
  let l := l.finish_subspace
  let sp := l.ctx.spaces.getD l.space.index LayoutSpace.zero
  let layout := Layout.mk
    (if l.ctx.expand then sp.dimensions else l.space.combined_dimensions.padded sp.padding)
    l.space.actions true
  let l := { l with layouts := l.layouts ++ [layout] }
  l.start_space l.next_space hard

/-- Source `StackLayouter::finish`. -/
def StackLayouter.finish (l : StackLayouter) : List Layout :=
  if l.space.hard || !l.space_is_empty then (l.finish_space false).layouts
  else l.layouts

/-- The first step of `StackLayouter::add`: materialize pending soft
spacing as hard spacing. -/
def StackLayouter.materialize (l : StackLayouter) : StackLayouter :=
  match l.sub.space with
  | LastSpacing.Soft s => l.add_space s SpaceKind.Hard
  | _ => l

/-- The generalized extent of a box under the layouter's axes
(`self.ctx.axes.generalize(layout.dimensions)` in `add`). -/
def StackLayouter.boxSize (l : StackLayouter) (layout : Layout) : Size2D :=
  l.ctx.axes.generalize layout.dimensions

/-- The tentative new used extent computed at the start of `add`. -/
def StackLayouter.tentative (l : StackLayouter) (layout : Layout) : Size2D :=
  Size2D.new (Max.max l.sub.dimensions.x (l.boxSize layout).x)
    (l.sub.dimensions.y + (l.boxSize layout).y)

/-- The generalized usable extent of candidate area `i` under the
layouter's current axes (what a subspace started at area `i` gets as its
usable extent). -/
def StackLayouter.usableAt (l : StackLayouter) (i : Nat) : Size2D :=
  l.ctx.axes.generalize ((l.ctx.spaces.getD i LayoutSpace.zero).usable)

/-- The `while !fits` retry loop of `StackLayouter::add`, with an explicit
fuel argument.  `add` supplies fuel `spaces.length + 2`, which is shown
below to be ample for every state, so the fuel-exhaustion arm (returning
the same overflow error the loop would produce) is semantically inert. -/
def StackLayouter.addLoop (size : Size2D) :
    Nat → StackLayouter → Size2D → Except LayoutError (StackLayouter × Size2D)
  | 0, _, _ => Except.error overflowError
  | f + 1, l, nd =>
    if fits l.sub.usable nd then Except.ok (l, nd)
    else if l.space_is_last && l.space_is_empty then Except.error overflowError
    else addLoop size f (l.finish_space true) size

/-- Source `StackLayouter::add`: materialize pending soft spacing, run the
retry loop, then commit the box (`Except.map` is the success-path
continuation; errors propagate unchanged, as in the source). -/
def StackLayouter.add (l : StackLayouter) (layout : Layout) :
    Except LayoutError StackLayouter :=
  let m := l.materialize
  let size := m.boxSize layout
  (StackLayouter.addLoop size (m.ctx.spaces.length + 2) m (m.tentative layout)).map (fun p =>
    { p.1 with sub := { p.1.sub with
      boxes := p.1.sub.boxes ++ [(p.1.sub.dimensions.y, p.1.ctx.axes.primary.anchor size.x, layout)]
      dimensions := p.2
      space := LastSpacing.Allowed } })

/-- Source `StackLayouter::add_multiple`. -/
def StackLayouter.add_multiple (l : StackLayouter) :
    List Layout → Except LayoutError StackLayouter
  | [] => Except.ok l
  | x :: xs =>
    match l.add x with
    | Except.error e => Except.error e
    | Except.ok l' => l'.add_multiple xs

/-- Source `StackLayouter::remaining_subspace`: the origin and usable extent
(both specialized) left over in the current subspace. -/
def StackLayouter.remaining_subspace (l : StackLayouter) : Size2D × Size2D :=
  let new_origin := l.sub.origin +
    (if l.ctx.axes.secondary.axis.is_positive then
      l.ctx.axes.specialize (Size2D.with_y l.sub.dimensions.y)
    else Size2D.zero)
  let new_usable := l.ctx.axes.specialize
    (Size2D.new l.sub.usable.x
      (l.sub.usable.y - l.sub.dimensions.y - l.sub.space.soft_or_zero))
  (new_origin, new_usable)

/-- Source `StackLayouter::remaining`. -/
def StackLayouter.remaining (l : StackLayouter) : List LayoutSpace :=
  LayoutSpace.mk (l.remaining_subspace).2 SizeBox.zero ::
    (l.ctx.spaces.drop l.next_space).map LayoutSpace.usable_space

/-- Source `StackLayouter::primary_usable`. -/
def StackLayouter.primary_usable (l : StackLayouter) : Int := l.sub.usable.x

/-- Source `StackLayouter::set_axes`. -/
def StackLayouter.set_axes (l : StackLayouter) (axes : LayoutAxes) : StackLayouter :=
  if axes ≠ l.ctx.axes then
    let l := l.finish_subspace
    let ou := l.remaining_subspace
    let l := { l with ctx := { l.ctx with axes := axes } }
    { l with sub := Subspace.new ou.1 ou.2 axes }
  else l

/-- Source `StackLayouter::set_spaces`. -/
def StackLayouter.set_spaces (l : StackLayouter) (spaces : List LayoutSpace)
    (replace_empty : Bool) : StackLayouter :=
  if replace_empty && l.space_is_empty then
    let l := { l with ctx := { l.ctx with spaces := spaces } }
    l.start_space 0 l.space.hard
  else
    { l with ctx := { l.ctx with spaces := l.ctx.spaces.take (l.space.index + 1) ++ spaces } }

/-- The invariant of the data model: the subspace's used extent does not
exceed its usable extent, componentwise. -/
def sizeInvariant (l : StackLayouter) : Prop :=
  l.sub.dimensions.x ≤ l.sub.usable.x ∧ l.sub.dimensions.y ≤ l.sub.usable.y

/-- All candidate areas have nonnegative usable extents (the sensible-
geometry assumption: padding does not exceed the area's dimensions). -/
def spacesNonneg (l : StackLayouter) : Prop :=
  ∀ s ∈ l.ctx.spaces, 0 ≤ s.usable.x ∧ 0 ≤ s.usable.y

/- Concrete fixtures used by counterexamples and witnesses. -/

/-- Identity axes: horizontal primary, vertical secondary, both positive,
origin-aligned, no expansion. -/
def axId : LayoutAxes :=
  ⟨⟨Direction.LeftToRight, Alignment.Origin, false⟩,
   ⟨Direction.TopToBottom, Alignment.Origin, false⟩⟩

/-- Swapped axes: vertical primary. -/
def axSwap : LayoutAxes :=
  ⟨⟨Direction.TopToBottom, Alignment.Origin, false⟩,
   ⟨Direction.LeftToRight, Alignment.Origin, false⟩⟩

/-- Axes with an expanding secondary axis. -/
def axExpandSec : LayoutAxes :=
  ⟨⟨Direction.LeftToRight, Alignment.Origin, false⟩,
   ⟨Direction.TopToBottom, Alignment.Origin, true⟩⟩

/-- A 100×100 candidate area with no padding. -/
def area100 : LayoutSpace := ⟨⟨100, 100⟩, SizeBox.zero⟩

/-- Context with a single 100×100 area. -/
def ctxOne : StackContext := ⟨[area100], axId, false⟩

/-- Context with two 100×100 areas. -/
def ctxTwo : StackContext := ⟨[area100, area100], axId, false⟩

/-- Context with a 100×100 first area and a 10×10 second area. -/
def ctxSmallSecond : StackContext := ⟨[area100, ⟨⟨10, 10⟩, SizeBox.zero⟩], axId, false⟩

/-- Context with areas 100×50 then 100×100. -/
def ctxShortFirst : StackContext := ⟨[⟨⟨100, 50⟩, SizeBox.zero⟩, area100], axId, false⟩

/-- Context with a single 100×100 area and an expanding secondary axis. -/
def ctxExpand : StackContext := ⟨[area100], axExpandSec, false⟩

/-- A 30×40 box. -/
def box30x40 : Layout := Layout.mk ⟨30, 40⟩ [] true

/-- A 50×70 box. -/
def box50x70 : Layout := Layout.mk ⟨50, 70⟩ [] true

/-- A 50×150 box (secondary extent 150). -/
def box50x150 : Layout := Layout.mk ⟨50, 150⟩ [] true

/-- A 60×120 box: fits neither a 100×100 nor a 10×10 area. -/
def box60x120 : Layout := Layout.mk ⟨60, 120⟩ [] true

/-- A 30×80 box. -/
def box30x80 : Layout := Layout.mk ⟨30, 80⟩ [] true

/-- A 10×50 box. -/
def box10x50 : Layout := Layout.mk ⟨10, 50⟩ [] true

/-- A 50×20 box. -/
def box50x20 : Layout := Layout.mk ⟨50, 20⟩ [] true

/-- Extract the success value of a layouting step, falling back to a
default layouter (used only to write concrete witnesses as closed terms). -/
def orElse (r : Except LayoutError StackLayouter) (d : StackLayouter) : StackLayouter :=
  r.toOption.getD d

/-- A layouter on `ctxOne` after one 30×40 box: spacing state `Allowed`. -/
def afterOneBox : StackLayouter :=
  orElse ((StackLayouter.new ctxOne).add box30x40) (StackLayouter.new ctxOne)

/-- A layouter on `ctxTwo` after one 30×40 box and pending soft spacing
of 50. -/
def afterBoxSoft : StackLayouter :=
  (orElse ((StackLayouter.new ctxTwo).add box30x40) (StackLayouter.new ctxTwo)).add_space
    50 SpaceKind.Soft

/-- A layouter sitting on a fresh second space whose hard flag is false:
obtained by force-finalizing the first space of `ctxTwo` with
`hard = false`. -/
def freshSoftSpace : StackLayouter :=
  (StackLayouter.new ctxTwo).finish_space false

/-! ## Basic lemmas about the operations -/

theorem add_space_ctx (l : StackLayouter) (amt : Int) (k : SpaceKind) :
    (l.add_space amt k).ctx = l.ctx := by
  unfold StackLayouter.add_space
  split_ifs <;> rfl

theorem add_space_space (l : StackLayouter) (amt : Int) (k : SpaceKind) :
    (l.add_space amt k).space = l.space := by
  unfold StackLayouter.add_space
  split_ifs <;> rfl

theorem add_space_layouts (l : StackLayouter) (amt : Int) (k : SpaceKind) :
    (l.add_space amt k).layouts = l.layouts := by
  unfold StackLayouter.add_space
  split_ifs <;> rfl

theorem add_space_sub_usable (l : StackLayouter) (amt : Int) (k : SpaceKind) :
    (l.add_space amt k).sub.usable = l.sub.usable := by
  unfold StackLayouter.add_space
  split_ifs <;> rfl

theorem add_space_sub_origin (l : StackLayouter) (amt : Int) (k : SpaceKind) :
    (l.add_space amt k).sub.origin = l.sub.origin := by
  unfold StackLayouter.add_space
  split_ifs <;> rfl

theorem add_space_sub_boxes (l : StackLayouter) (amt : Int) (k : SpaceKind) :
    (l.add_space amt k).sub.boxes = l.sub.boxes := by
  unfold StackLayouter.add_space
  split_ifs <;> rfl

theorem add_space_sub_dimensions_x (l : StackLayouter) (amt : Int) (k : SpaceKind) :
    (l.add_space amt k).sub.dimensions.x = l.sub.dimensions.x := by
  unfold StackLayouter.add_space
  split_ifs <;> rfl

theorem add_space_hard_y (l : StackLayouter) (amt : Int) :
    (l.add_space amt SpaceKind.Hard).sub.dimensions.y =
      l.sub.dimensions.y + Min.min amt (l.sub.usable.y - l.sub.dimensions.y) := by
  unfold StackLayouter.add_space
  simp only [reduceCtorEq, reduceIte]
  split_ifs with h <;> dsimp only <;> omega

theorem add_space_hard_state (l : StackLayouter) (amt : Int) :
    (l.add_space amt SpaceKind.Hard).sub.space = LastSpacing.Forbidden := by
  unfold StackLayouter.add_space
  simp only [reduceCtorEq, reduceIte]

theorem add_space_soft_y (l : StackLayouter) (amt : Int) :
    (l.add_space amt SpaceKind.Soft).sub.dimensions = l.sub.dimensions := by
  unfold StackLayouter.add_space
  simp only [if_pos]
  split_ifs <;> rfl

theorem materialize_ctx (l : StackLayouter) : l.materialize.ctx = l.ctx := by
  unfold StackLayouter.materialize
  cases l.sub.space <;> simp [add_space_ctx]

theorem materialize_space (l : StackLayouter) : l.materialize.space = l.space := by
  unfold StackLayouter.materialize
  cases l.sub.space <;> simp [add_space_space]

theorem materialize_layouts (l : StackLayouter) : l.materialize.layouts = l.layouts := by
  unfold StackLayouter.materialize
  cases l.sub.space <;> simp [add_space_layouts]

theorem space_is_last_iff (l : StackLayouter) :
    l.space_is_last = true ↔ l.space.index = l.ctx.spaces.length - 1 := by
  simp [StackLayouter.space_is_last]

theorem fits_iff (a b : Size2D) : fits a b = true ↔ b.x ≤ a.x ∧ b.y ≤ a.y := by
  simp [fits]

theorem finish_space_ctx (l : StackLayouter) (h : Bool) :
    (l.finish_space h).ctx = l.ctx := rfl

theorem finish_space_index (l : StackLayouter) (h : Bool) :
    (l.finish_space h).space.index = l.next_space := rfl

theorem finish_space_hard (l : StackLayouter) (h : Bool) :
    (l.finish_space h).space.hard = h := rfl

theorem finish_space_actions (l : StackLayouter) (h : Bool) :
    (l.finish_space h).space.actions = [] := rfl

theorem finish_space_combined (l : StackLayouter) (h : Bool) :
    (l.finish_space h).space.combined_dimensions = Size2D.zero := rfl

theorem finish_space_sub_boxes (l : StackLayouter) (h : Bool) :
    (l.finish_space h).sub.boxes = [] := rfl

theorem finish_space_sub_dimensions (l : StackLayouter) (h : Bool) :
    (l.finish_space h).sub.dimensions = Size2D.zero := rfl

theorem finish_space_sub_usable (l : StackLayouter) (h : Bool) :
    (l.finish_space h).sub.usable =
      l.ctx.axes.generalize ((l.ctx.spaces.getD l.next_space LayoutSpace.zero).usable) := rfl

theorem finish_space_empty (l : StackLayouter) (h : Bool) :
    (l.finish_space h).space_is_empty = true := rfl

theorem finish_space_layouts (l : StackLayouter) (h : Bool) :
    ∃ y, (l.finish_space h).layouts = l.layouts ++ [y] := ⟨_, rfl⟩

theorem next_space_lt (l : StackLayouter) (h : 0 < l.ctx.spaces.length) :
    l.next_space < l.ctx.spaces.length := by
  unfold StackLayouter.next_space
  omega

theorem usableAt_congr (a b : StackLayouter) (h : a.ctx = b.ctx) :
    a.usableAt = b.usableAt := by
  funext i
  unfold StackLayouter.usableAt
  rw [h]

/-! ## Lemmas about the retry loop of `add` -/

theorem addLoop_succ (size : Size2D) (f : Nat) (l : StackLayouter) (nd : Size2D) :
    StackLayouter.addLoop size (f + 1) l nd =
      if fits l.sub.usable nd then Except.ok (l, nd)
      else if l.space_is_last && l.space_is_empty then Except.error overflowError
      else StackLayouter.addLoop size f (l.finish_space true) size := rfl

theorem addLoop_error_val (size : Size2D) :
    ∀ (f : Nat) (l : StackLayouter) (nd : Size2D) (e : LayoutError),
      StackLayouter.addLoop size f l nd = Except.error e → e = overflowError := by
  intro f
  induction f with
  | zero =>
    intro l nd e h
    unfold StackLayouter.addLoop at h
    injection h with h
    exact h.symm
  | succ f ih =>
    intro l nd e h
    rw [addLoop_succ] at h
    split_ifs at h with h1 h2
    · injection h with h
      exact h.symm
    · exact ih _ _ _ h

theorem addLoop_ok_fits (size : Size2D) :
    ∀ (f : Nat) (l : StackLayouter) (nd : Size2D) (l' : StackLayouter) (nd' : Size2D),
      StackLayouter.addLoop size f l nd = Except.ok (l', nd') →
      fits l'.sub.usable nd' = true := by
  intro f
  induction f with
  | zero =>
    intro l nd l' nd' h
    unfold StackLayouter.addLoop at h
    exact absurd h (by simp)
  | succ f ih =>
    intro l nd l' nd' h
    rw [addLoop_succ] at h
    split_ifs at h with h1 h2
    · injection h with h
      obtain ⟨rfl, rfl⟩ := Prod.mk.injEq .. ▸ h.symm
      exact h1
    · exact ih _ _ _ _ h

theorem addLoop_ok_hard (size : Size2D) :
    ∀ (f : Nat) (l : StackLayouter) (nd : Size2D) (l' : StackLayouter) (nd' : Size2D),
      StackLayouter.addLoop size f l nd = Except.ok (l', nd') →
      l' = l ∨ l'.space.hard = true := by
  intro f
  induction f with
  | zero =>
    intro l nd l' nd' h
    unfold StackLayouter.addLoop at h
    exact absurd h (by simp)
  | succ f ih =>
    intro l nd l' nd' h
    rw [addLoop_succ] at h
    split_ifs at h with h1 h2
    · injection h with h
      obtain ⟨rfl, rfl⟩ := Prod.mk.injEq .. ▸ h.symm
      exact Or.inl rfl
    · rcases ih _ _ _ _ h with rfl | hh
      · exact Or.inr (finish_space_hard l true)
      · exact Or.inr hh

theorem addLoop_steady (size : Size2D) :
    ∀ (f j : Nat) (l : StackLayouter),
      l.space.index = j → j < l.ctx.spaces.length → l.space_is_empty = true →
      l.sub.usable = l.usableAt j → l.ctx.spaces.length - j ≤ f →
      (StackLayouter.addLoop size f l size = Except.error overflowError ↔
        ∀ i, j ≤ i → i < l.ctx.spaces.length → fits (l.usableAt i) size = false) := by
  intro f
  induction f with
  | zero =>
    intro j l hidx hlt hemp husable hfuel
    omega
  | succ f ih =>
    intro j l hidx hlt hemp husable hfuel
    rw [addLoop_succ, husable]
    cases hfit : fits (l.usableAt j) size with
    | true =>
      simp only [if_pos rfl]
      constructor
      · intro h
        exact absurd h (by simp)
      · intro hall
        exact absurd (hall j le_rfl (hidx ▸ hlt)) (by simp [hfit])
    | false =>
      simp only [Bool.false_eq_true, if_false, hemp, Bool.and_true]
      cases hlast : l.space_is_last with
      | true =>
        simp only [if_pos rfl]
        have hj : j = l.ctx.spaces.length - 1 := by
          have := (space_is_last_iff l).mp hlast
          omega
        constructor
        · intro _ i h1 h2
          have : i = j := by omega
          subst this
          exact hfit
        · intro _
          rfl
      | false =>
        simp only [Bool.false_eq_true, if_false]
        have hctx : (l.finish_space true).ctx = l.ctx := finish_space_ctx l true
        have hua : (l.finish_space true).usableAt = l.usableAt := usableAt_congr _ _ hctx
        have hne : j ≠ l.ctx.spaces.length - 1 := by
          intro hj
          rw [(space_is_last_iff l).mpr (hidx ▸ hj)] at hlast
          exact Bool.true_eq_false.mp hlast
        have hnext : l.next_space = j + 1 := by
          unfold StackLayouter.next_space
          rw [hidx]
          omega
        have hj' : (l.finish_space true).space.index = j + 1 := by
          rw [finish_space_index, hnext]
        have hlt' : j + 1 < (l.finish_space true).ctx.spaces.length := by
          rw [hctx]
          omega
        have husable' : (l.finish_space true).sub.usable =
            (l.finish_space true).usableAt (j + 1) := by
          rw [finish_space_sub_usable, hua, hnext]
          rfl
        have hfuel' : (l.finish_space true).ctx.spaces.length - (j + 1) ≤ f := by
          rw [hctx]
          omega
        rw [ih (j + 1) (l.finish_space true) hj' hlt' (finish_space_empty l true)
          husable' hfuel', hctx, hua]
        constructor
        · intro hall i h1 h2
          rcases Nat.eq_or_lt_of_le h1 with rfl | hgt
          · exact hfit
          · exact hall i hgt h2
        · intro hall i h1 h2
          exact hall i (by omega) h2

theorem except_map_eq_error {A B C : Type} (f : A → B) (x : Except C A) (e : C) :
    x.map f = Except.error e ↔ x = Except.error e := by
  cases x <;> simp [Except.map]

theorem except_map_eq_ok {A B C : Type} (f : A → B) (x : Except C A) (b : B)
    (h : x.map f = Except.ok b) : ∃ a, x = Except.ok a ∧ f a = b := by
  cases x with
  | error e => simp [Except.map] at h
  | ok a =>
    refine ⟨a, rfl, ?_⟩
    simpa [Except.map] using h

theorem add_def (l : StackLayouter) (box : Layout) :
    l.add box =
      (StackLayouter.addLoop (l.materialize.boxSize box)
          (l.materialize.ctx.spaces.length + 2) l.materialize (l.materialize.tentative box)).map
        (fun p => { p.1 with sub := { p.1.sub with
          boxes := p.1.sub.boxes ++ [(p.1.sub.dimensions.y,
            p.1.ctx.axes.primary.anchor (l.materialize.boxSize box).x, box)]
          dimensions := p.2
          space := LastSpacing.Allowed } }) := rfl

theorem add_fits_immediately (l : StackLayouter) (box : Layout)
    (hfit : fits l.materialize.sub.usable (l.materialize.tentative box) = true) :
    l.add box = Except.ok { l.materialize with sub := { l.materialize.sub with
      boxes := l.materialize.sub.boxes ++ [(l.materialize.sub.dimensions.y,
        l.materialize.ctx.axes.primary.anchor (l.materialize.boxSize box).x, box)]
      dimensions := l.materialize.tentative box
      space := LastSpacing.Allowed } } := by
  rw [add_def,
    show l.materialize.ctx.spaces.length + 2 = (l.materialize.ctx.spaces.length + 1) + 1 from rfl,
    addLoop_succ, if_pos hfit]
  rfl

theorem add_ok_invariant (l : StackLayouter) (box : Layout) (l' : StackLayouter)
    (h : l.add box = Except.ok l') : sizeInvariant l' := by
  rw [add_def] at h
  obtain ⟨p, hl, hfp⟩ := except_map_eq_ok _ _ _ h
  have hf := addLoop_ok_fits _ _ _ _ _ _ hl
  rw [fits_iff] at hf
  rw [← hfp]
  exact hf

theorem drop_pred_eq (xs : List LayoutSpace) (h : 0 < xs.length) :
    xs.drop (xs.length - 1) = [xs.getD (xs.length - 1) LayoutSpace.zero] := by
  induction xs with
  | nil => simp at h
  | cons a xs ih =>
    cases xs with
    | nil => rfl
    | cons b ys =>
      have hlen : (a :: b :: ys).length - 1 = (b :: ys).length - 1 + 1 := by
        simp
      rw [hlen, List.drop_succ_cons, List.getD_cons_succ]
      exact ih (by simp)

/-! ## The claims -/

/-- C1 (counterexample).  The claim states that `add` surfaces the
overflow error only when the current space is the last available area (and
empty), and that in every other non-fitting case the insertion succeeds
with no error.  Against the code this is false: with areas 100×100 and
10×10 and a 60×120 box, the box does not fit the current (first, not
last) space, yet `add` errors — the retry in the following area fails
again, and the error is raised from the advanced state. -/
theorem c1_counterexample :
    (StackLayouter.new ctxSmallSecond).space_is_last = false ∧
      fits (StackLayouter.new ctxSmallSecond).sub.usable
        ((StackLayouter.new ctxSmallSecond).tentative box60x120) = false ∧
      (StackLayouter.new ctxSmallSecond).add box60x120 = Except.error overflowError :=
  ⟨rfl, rfl, rfl⟩

/-- C1 (amended).  `add` returns the overflow error iff the tentative
used extent (after materializing pending soft spacing) does not fit the
current subspace's usable extent, and either the current space is the
last available area and empty, or the box's generalized extent does not
fit the usable extent of any of the candidate areas the retry loop
advances through (from `next_space` to the end of the list). -/
theorem c1_overflow_error_characterization (l : StackLayouter) (box : Layout)
    (hlen : l.space.index < l.ctx.spaces.length) :
    l.add box = Except.error overflowError ↔
      fits l.materialize.sub.usable (l.materialize.tentative box) = false ∧
        ((l.materialize.space_is_last = true ∧ l.materialize.space_is_empty = true) ∨
          ∀ i, l.materialize.next_space ≤ i → i < l.materialize.ctx.spaces.length →
            fits (l.materialize.usableAt i) (l.materialize.boxSize box) = false) := by
  have hctx : l.materialize.ctx = l.ctx := materialize_ctx l
  have hsp : l.materialize.space = l.space := materialize_space l
  have key : l.add box = Except.error overflowError ↔
      StackLayouter.addLoop (l.materialize.boxSize box) (l.materialize.ctx.spaces.length + 2)
        l.materialize (l.materialize.tentative box) = Except.error overflowError := by
    rw [add_def, except_map_eq_error]
  rw [key,
    show l.materialize.ctx.spaces.length + 2 = (l.materialize.ctx.spaces.length + 1) + 1 from rfl,
    addLoop_succ]
  cases hfit : fits l.materialize.sub.usable (l.materialize.tentative box) with
  | true =>
    simp only [if_pos rfl]
    constructor
    · intro h
      exact absurd h (by simp)
    · rintro ⟨hf, _⟩
      exact absurd hf (by simp)
  | false =>
    simp only [Bool.false_eq_true, if_false]
    cases hguard : (l.materialize.space_is_last && l.materialize.space_is_empty) with
    | true =>
      simp only [if_pos rfl]
      have hg := Bool.and_eq_true_iff.mp hguard
      exact ⟨fun _ => ⟨by simp, Or.inl hg⟩, fun _ => rfl⟩
    | false =>
      simp only [Bool.false_eq_true, if_false]
      have hmlt : l.materialize.space.index < l.materialize.ctx.spaces.length := by
        rw [hctx, hsp]
        exact hlen
      have hlen1 : 0 < l.materialize.ctx.spaces.length := by omega
      have hjlt : l.materialize.next_space < l.materialize.ctx.spaces.length :=
        next_space_lt l.materialize hlen1
      have h1 : (l.materialize.finish_space true).space.index = l.materialize.next_space :=
        finish_space_index l.materialize true
      have h2 : l.materialize.next_space < (l.materialize.finish_space true).ctx.spaces.length := by
        rw [finish_space_ctx]
        exact hjlt
      have hua : (l.materialize.finish_space true).usableAt = l.materialize.usableAt :=
        usableAt_congr _ _ (finish_space_ctx l.materialize true)
      have h4 : (l.materialize.finish_space true).sub.usable =
          (l.materialize.finish_space true).usableAt l.materialize.next_space := by
        rw [finish_space_sub_usable, hua]
        rfl
      have h5 : (l.materialize.finish_space true).ctx.spaces.length -
          l.materialize.next_space ≤ l.materialize.ctx.spaces.length + 1 := by
        rw [finish_space_ctx]
        omega
      rw [addLoop_steady (l.materialize.boxSize box) (l.materialize.ctx.spaces.length + 1)
        l.materialize.next_space (l.materialize.finish_space true) h1 h2
        (finish_space_empty l.materialize true) h4 h5, finish_space_ctx, hua]
      constructor
      · intro hall
        exact ⟨by simp, Or.inr hall⟩
      · rintro ⟨_, ⟨ha, hb⟩ | hall⟩
        · rw [ha, hb] at hguard
          exact absurd hguard (by simp)
        · exact hall

/-- C1 witness: the claim's own concrete half holds — a single
100×100 area and a box of secondary extent 150 make `add` fail with the
overflow error (the space is both empty and last). -/
theorem c1_witness :
    (StackLayouter.new ctxOne).add box50x150 = Except.error overflowError :=
  (c1_overflow_error_characterization (StackLayouter.new ctxOne) box50x150 (by decide)).mpr
    ⟨by decide, Or.inl ⟨by decide, by decide⟩⟩

/-- C2 (confirmed).  Two 100×100 areas, boxes 30×40 then 50×70 with
secondary-axis stacking: the second insertion finalizes the first space
(whose emitted layout contains exactly the first box, placed at the
origin), and the second box sits alone in the second space's subspace. -/
theorem c2_overflow_retry :
    ((StackLayouter.new ctxTwo).add_multiple [box30x40, box50x70]).map
        (fun l => (l.layouts, l.space.index, l.sub.boxes)) =
      Except.ok ([Layout.mk ⟨30, 40⟩ [(⟨0, 0⟩, box30x40)] true], 1,
        [(0, 0, box50x70)]) := rfl

/-- C3 (counterexample).  The claim states that on natural overflow
the newly started space's hard flag is false.  Against the code it is
true: `add` advances with `finish_space(true)`.  In the C2 scenario the
second box naturally overflows into the second space (one layout has been
emitted), and the new space's hard flag is `true`. -/
theorem c3_counterexample :
    ((StackLayouter.new ctxTwo).add_multiple [box30x40, box50x70]).map
        (fun l => (l.layouts.length, l.space.hard)) = Except.ok (1, true) := rfl

/-- C3 (amended).  Whenever `add` succeeds after advancing to another
area on its own (observable as an emitted layout), the newly started
space's hard flag is `true`, not false: the overflow path calls
`finish_space(true)`. -/
theorem c3_natural_overflow_hard (l : StackLayouter) (box : Layout) (l' : StackLayouter)
    (hok : l.add box = Except.ok l') (hchanged : l.layouts.length ≠ l'.layouts.length) :
    l'.space.hard = true := by
  rw [add_def] at hok
  obtain ⟨p, hl, hfp⟩ := except_map_eq_ok _ _ _ hok
  rcases addLoop_ok_hard _ _ _ _ _ _ hl with heq | hhard
  · exfalso
    apply hchanged
    rw [← hfp, heq]
    exact congrArg List.length (materialize_layouts l).symm
  · rw [← hfp]
    exact hhard

/-- C3 witness: a fresh layouter on areas 100×50 then 100×100; a
30×80 box overflows the first area, one layout is emitted, and the
resulting space's hard flag is `true`. -/
theorem c3_witness :
    (orElse ((StackLayouter.new ctxShortFirst).add box30x80)
        (StackLayouter.new ctxShortFirst)).space.hard = true :=
  c3_natural_overflow_hard (StackLayouter.new ctxShortFirst) box30x80 _ rfl (by decide)

/-- C4 (counterexample).  The claim states that when the current
space is the last area, `remaining` contains only the current subspace's
unused extent.  Against the code it also re-includes the last area's full
usable extent, because `next_space` clamps to `len - 1`. -/
theorem c4_counterexample :
    (StackLayouter.new ctxOne).space_is_last = true ∧
      (StackLayouter.new ctxOne).remaining ≠
        [LayoutSpace.mk ((StackLayouter.new ctxOne).remaining_subspace).2 SizeBox.zero] :=
  ⟨rfl, by decide⟩

/-- C4 (amended).  `remaining` returns the current subspace's unused
extent followed by the usable extents of the areas from index
`min(index + 1, len - 1)` on; in particular, when the current space is
the last area the result is the unused extent followed by the last area's
own usable extent (not the unused extent alone). -/
theorem c4_remaining_capacity (l : StackLayouter) (hlen : l.space.index < l.ctx.spaces.length) :
    l.remaining = LayoutSpace.mk (l.remaining_subspace).2 SizeBox.zero ::
        (l.ctx.spaces.drop (Min.min (l.space.index + 1) (l.ctx.spaces.length - 1))).map
          LayoutSpace.usable_space ∧
      (l.space_is_last = true →
        l.remaining = [LayoutSpace.mk (l.remaining_subspace).2 SizeBox.zero,
          (l.ctx.spaces.getD l.space.index LayoutSpace.zero).usable_space]) := by
  constructor
  · rfl
  · intro hl
    have hj : l.space.index = l.ctx.spaces.length - 1 := (space_is_last_iff l).mp hl
    have hnext : l.next_space = l.ctx.spaces.length - 1 := by
      unfold StackLayouter.next_space
      omega
    unfold StackLayouter.remaining
    rw [hnext, hj, drop_pred_eq l.ctx.spaces (by omega)]
    rfl

/-- C4 witness: on a single 100×100 area the current space is last,
and `remaining` is the unused extent 100×100 followed by the area's
usable extent 100×100 — two entries, not one. -/
theorem c4_witness :
    (StackLayouter.new ctxOne).remaining =
      [LayoutSpace.mk ⟨100, 100⟩ SizeBox.zero, LayoutSpace.mk ⟨100, 100⟩ SizeBox.zero] :=
  (c4_remaining_capacity (StackLayouter.new ctxOne) (by decide)).2 (by decide)

/-- C5 (confirmed).  Hard spacing increases the used secondary extent
by exactly `min(amount, usable - used)`, never exceeds the usable
secondary extent, reaches exactly the usable extent when the amount
exceeds the remaining capacity, and leaves the spacing state
`Forbidden`. -/
theorem c5_hard_spacing_clamp (l : StackLayouter) (amt : Int) :
    (l.add_space amt SpaceKind.Hard).sub.dimensions.y =
        l.sub.dimensions.y + Min.min amt (l.sub.usable.y - l.sub.dimensions.y) ∧
      (l.add_space amt SpaceKind.Hard).sub.dimensions.y ≤ l.sub.usable.y ∧
      (l.sub.usable.y - l.sub.dimensions.y < amt →
        (l.add_space amt SpaceKind.Hard).sub.dimensions.y = l.sub.usable.y) ∧
      (l.add_space amt SpaceKind.Hard).sub.space = LastSpacing.Forbidden := by
  refine ⟨add_space_hard_y l amt, ?_, ?_, add_space_hard_state l amt⟩
  · rw [add_space_hard_y]
    omega
  · intro h
    rw [add_space_hard_y]
    omega

/-- C5 witness: inserting hard spacing 150 into a fresh 100×100
subspace clamps the used secondary extent to exactly 100. -/
theorem c5_witness :
    ((StackLayouter.new ctxOne).add_space 150 SpaceKind.Hard).sub.dimensions.y = 100 :=
  (c5_hard_spacing_clamp (StackLayouter.new ctxOne) 150).2.2.1 (by decide)

theorem finish_sub_space_irrel (l : StackLayouter) (s : LastSpacing) :
    StackLayouter.finish { l with sub := { l.sub with space := s } } = l.finish := rfl

/-- C6 (counterexample).  The claim quantifies over every layouter
state, but in a fresh subspace the spacing state is `Forbidden`, so soft
spacing is dropped entirely: soft 10 followed by a 30×40 box yields used
secondary extent 40, not the claimed `min(10, 100 - 0) + 40 = 50`. -/
theorem c6_counterexample :
    (StackLayouter.new ctxOne).sub.space = LastSpacing.Forbidden ∧
      (((StackLayouter.new ctxOne).add_space 10 SpaceKind.Soft).add box30x40).map
        (fun r => r.sub.dimensions.y) = Except.ok 40 ∧
      (40 : Int) ≠ 0 + Min.min 10 ((100 : Int) - 0) + 40 :=
  ⟨rfl, rfl, by decide⟩

/-- C6 (amended).  (1) Soft spacing followed immediately by `finish`
emits exactly the layouts that omitting the soft spacing yields.  (2)
Provided the spacing state is not `Forbidden` (otherwise the soft
spacing is a no-op), soft spacing followed by a box that fits without
advancing increases the used secondary extent by exactly the spacing
amount clamped to the remaining secondary capacity plus the box's
secondary extent. -/
theorem c6_soft_spacing_collapse (l : StackLayouter) (amt : Int) (box : Layout) :
    (l.add_space amt SpaceKind.Soft).finish = l.finish ∧
      (l.sub.space ≠ LastSpacing.Forbidden →
        fits l.sub.usable (Size2D.new (Max.max l.sub.dimensions.x (l.boxSize box).x)
            (l.sub.dimensions.y + Min.min amt (l.sub.usable.y - l.sub.dimensions.y) +
              (l.boxSize box).y)) = true →
        ((l.add_space amt SpaceKind.Soft).add box).map (fun r => r.sub.dimensions.y) =
          Except.ok (l.sub.dimensions.y + Min.min amt (l.sub.usable.y - l.sub.dimensions.y) +
            (l.boxSize box).y)) := by
  have hsoft : l.sub.space ≠ LastSpacing.Forbidden →
      l.add_space amt SpaceKind.Soft =
        { l with sub := { l.sub with space := LastSpacing.Soft amt } } := by
    intro hs
    unfold StackLayouter.add_space
    rw [if_pos rfl, if_pos hs]
  constructor
  · by_cases hs : l.sub.space = LastSpacing.Forbidden
    · have hid : l.add_space amt SpaceKind.Soft = l := by
        unfold StackLayouter.add_space
        rw [if_pos rfl, if_neg (not_not.mpr hs)]
      rw [hid]
    · rw [hsoft hs, finish_sub_space_irrel]
  · intro hs hfit
    rw [hsoft hs]
    set L : StackLayouter := { l with sub := { l.sub with space := LastSpacing.Soft amt } }
      with hLdef
    have hmat : L.materialize = L.add_space amt SpaceKind.Hard := rfl
    have husable : L.materialize.sub.usable = l.sub.usable := by
      rw [hmat, add_space_sub_usable]
    have hdx : L.materialize.sub.dimensions.x = l.sub.dimensions.x := by
      rw [hmat, add_space_sub_dimensions_x]
    have hdy : L.materialize.sub.dimensions.y =
        l.sub.dimensions.y + Min.min amt (l.sub.usable.y - l.sub.dimensions.y) := by
      rw [hmat, add_space_hard_y]
    have hbs : L.materialize.boxSize box = l.boxSize box := by
      unfold StackLayouter.boxSize
      rw [hmat, add_space_ctx]
    have htent : L.materialize.tentative box =
        Size2D.new (Max.max l.sub.dimensions.x (l.boxSize box).x)
          (l.sub.dimensions.y + Min.min amt (l.sub.usable.y - l.sub.dimensions.y) +
            (l.boxSize box).y) := by
      unfold StackLayouter.tentative
      rw [hbs, hdx, hdy]
    have hfit2 : fits L.materialize.sub.usable (L.materialize.tentative box) = true := by
      rw [husable, htent]
      exact hfit
    rw [add_fits_immediately L box hfit2]
    have hyval : (L.materialize.tentative box).y =
        l.sub.dimensions.y + Min.min amt (l.sub.usable.y - l.sub.dimensions.y) +
          (l.boxSize box).y := by
      rw [htent]
      rfl
    exact congrArg Except.ok hyval

/-- C6 witness: after one 30×40 box in a 100×100 area (state
`Allowed`), soft 10 then a 50×20 box gives used secondary extent
`40 + min(10, 60) + 20 = 70`. -/
theorem c6_witness :
    ((afterOneBox.add_space 10 SpaceKind.Soft).add box50x20).map
        (fun r => r.sub.dimensions.y) = Except.ok 70 :=
  (c6_soft_spacing_collapse afterOneBox 10 box50x20).2 (by decide) (by decide)

theorem add_space_invariant (l : StackLayouter) (hinv : sizeInvariant l) (amt : Int)
    (k : SpaceKind) : sizeInvariant (l.add_space amt k) := by
  constructor
  · rw [add_space_sub_dimensions_x, add_space_sub_usable]
    exact hinv.1
  · cases k
    · rw [add_space_hard_y, add_space_sub_usable]
      omega
    · rw [add_space_sub_usable, add_space_soft_y]
      exact hinv.2

theorem finish_space_invariant (l : StackLayouter) (hs : spacesNonneg l) (hard : Bool) :
    sizeInvariant (l.finish_space hard) := by
  have hu : 0 ≤ ((l.ctx.spaces.getD l.next_space LayoutSpace.zero).usable).x ∧
      0 ≤ ((l.ctx.spaces.getD l.next_space LayoutSpace.zero).usable).y := by
    by_cases h : l.next_space < l.ctx.spaces.length
    · rw [List.getD_eq_getElem l.ctx.spaces LayoutSpace.zero h]
      exact hs _ (List.getElem_mem h)
    · rw [List.getD_eq_default l.ctx.spaces LayoutSpace.zero (by omega)]
      exact ⟨le_refl 0, le_refl 0⟩
  constructor
  · rw [finish_space_sub_dimensions, finish_space_sub_usable]
    unfold LayoutAxes.generalize
    split_ifs
    · exact hu.1
    · exact hu.2
  · rw [finish_space_sub_dimensions, finish_space_sub_usable]
    unfold LayoutAxes.generalize
    split_ifs
    · exact hu.2
    · exact hu.1

theorem add_multiple_invariant :
    ∀ (boxes : List Layout) (l l' : StackLayouter), sizeInvariant l →
      l.add_multiple boxes = Except.ok l' → sizeInvariant l' := by
  intro boxes
  induction boxes with
  | nil =>
    intro l l' hinv h
    unfold StackLayouter.add_multiple at h
    injection h with h
    rw [← h]
    exact hinv
  | cons b bs ih =>
    intro l l' hinv h
    unfold StackLayouter.add_multiple at h
    revert h
    cases hb : l.add b with
    | error e =>
      intro h
      exact absurd h (by simp)
    | ok m =>
      intro h
      exact ih m l' (add_ok_invariant l b m hb) h

/-- C7 (counterexample).  The claim includes `set_axes` among the
operations after which the used-extent-fits-usable invariant holds.  It
fails: a 10×50 box, pending soft 80, then an axis change leave the new
subspace with usable primary extent `-30` while the used extent is 0. -/
theorem c7_counterexample :
    ((StackLayouter.new ctxOne).add box10x50).map (fun a =>
        (((a.add_space 80 SpaceKind.Soft).set_axes axSwap).sub.dimensions.x,
          ((a.add_space 80 SpaceKind.Soft).set_axes axSwap).sub.usable.x)) =
      Except.ok (0, -30) ∧ ¬((0 : Int) ≤ -30) :=
  ⟨rfl, by decide⟩

/-- C7 (amended).  The component-wise invariant `used ≤ usable` holds
after every successful `add` (unconditionally), after `add_space` and a
successful `add_multiple` when it held before, and after `finish_space`
when every candidate area's usable extent is nonnegative; it is `set_axes`
(with excessive pending soft spacing) that can break it. -/
theorem c7_used_le_usable (l : StackLayouter) :
    (∀ box l', l.add box = Except.ok l' → sizeInvariant l') ∧
      (sizeInvariant l → ∀ amt k, sizeInvariant (l.add_space amt k)) ∧
      (spacesNonneg l → ∀ hard, sizeInvariant (l.finish_space hard)) ∧
      (sizeInvariant l → ∀ boxes l', l.add_multiple boxes = Except.ok l' → sizeInvariant l') :=
  ⟨fun box l' h => add_ok_invariant l box l' h,
   fun hinv amt k => add_space_invariant l hinv amt k,
   fun hs hard => finish_space_invariant l hs hard,
   fun hinv boxes l' h => add_multiple_invariant boxes l l' hinv h⟩

/-- C7 witness: on a fresh 100×100 layouter the invariant holds and is
preserved by hard spacing of 30. -/
theorem c7_witness : sizeInvariant ((StackLayouter.new ctxOne).add_space 30 SpaceKind.Hard) :=
  (c7_used_le_usable (StackLayouter.new ctxOne)).2.1 ⟨by decide, by decide⟩ 30 SpaceKind.Hard

/-- C8 (counterexample).  The claim asserts a zero combined used
extent for every construction context; with an expanding secondary axis
the empty subspace is stretched to the full usable extent, so the
combined used extent of the single emitted space is 0×100, not zero. -/
theorem c8_counterexample :
    (StackLayouter.new ctxExpand).finish = [Layout.mk ⟨0, 100⟩ [] true] ∧
      (StackLayouter.new ctxExpand).finish_subspace.space.combined_dimensions = ⟨0, 100⟩ ∧
      (⟨0, 100⟩ : Size2D) ≠ Size2D.zero :=
  ⟨rfl, rfl, by decide⟩

/-- C8 (amended).  Construction followed immediately by `finish`
always emits exactly one layout (the first space is created hard); the
combined used extent at emission is zero provided neither axis carries
the expansion flag. -/
theorem c8_empty_finish (ctx : StackContext) :
    (StackLayouter.new ctx).finish.length = 1 ∧
      (ctx.axes.primary.expand = false → ctx.axes.secondary.expand = false →
        (StackLayouter.new ctx).finish_subspace.space.combined_dimensions = Size2D.zero) := by
  constructor
  · have hcond : ((StackLayouter.new ctx).space.hard ||
        !(StackLayouter.new ctx).space_is_empty) = true := rfl
    unfold StackLayouter.finish
    rw [if_pos hcond]
    obtain ⟨y, hy⟩ := finish_space_layouts (StackLayouter.new ctx) false
    rw [hy]
    rfl
  · intro hp hsec
    unfold StackLayouter.finish_subspace
    dsimp only
    rw [show (StackLayouter.new ctx).ctx.axes.primary.needs_expansion =
        ctx.axes.primary.expand from rfl,
      show (StackLayouter.new ctx).ctx.axes.secondary.needs_expansion =
        ctx.axes.secondary.expand from rfl, hp, hsec]
    simp only [Bool.false_eq_true, if_false]
    have hspec : (StackLayouter.new ctx).ctx.axes.specialize
        (StackLayouter.new ctx).sub.dimensions = Size2D.zero := by
      unfold LayoutAxes.specialize
      split_ifs <;> rfl
    rw [hspec]
    have hsub : ∀ v : Size2D, Size2D.max Size2D.zero (v - v + Size2D.zero) = Size2D.zero := by
      intro v
      show Size2D.mk (Max.max 0 (v.x - v.x + 0)) (Max.max 0 (v.y - v.y + 0)) = Size2D.mk 0 0
      have hx : v.x - v.x + 0 = 0 := by omega
      have hy : v.y - v.y + 0 = 0 := by omega
      rw [hx, hy]
      rfl
    exact hsub _

/-- C8 witness: on a plain 100×100 context with no expansion flags,
`finish` right after construction emits one layout and the combined used
extent at emission is zero. -/
theorem c8_witness :
    (StackLayouter.new ctxOne).finish.length = 1 ∧
      (StackLayouter.new ctxOne).finish_subspace.space.combined_dimensions = Size2D.zero :=
  ⟨(c8_empty_finish ctxOne).1, (c8_empty_finish ctxOne).2 rfl rfl⟩

theorem finish_space_emits (l : StackLayouter) (hard : Bool) :
    (l.finish_space hard).layouts = l.layouts ++
      [Layout.mk (if l.ctx.expand
          then (l.ctx.spaces.getD l.space.index LayoutSpace.zero).dimensions
          else (l.finish_subspace.space.combined_dimensions.padded
            (l.ctx.spaces.getD l.space.index LayoutSpace.zero).padding))
        l.finish_subspace.space.actions true] := rfl

theorem finish_subspace_actions_nil (l : StackLayouter) (hact : l.space.actions = [])
    (hboxes : l.sub.boxes = []) : l.finish_subspace.space.actions = [] := by
  unfold StackLayouter.finish_subspace
  dsimp only
  rw [hact, hboxes]
  rfl

/-- C9 (confirmed).  Hard spacing with a positive amount inserted
into a fresh space (no boxes, no actions, zero used extent, positive
usable secondary extent) makes `space_is_empty` return false, so `finish`
emits a layout for that space even though its hard flag is false, and the
emitted layout carries no placement instructions. -/
theorem c9_hard_spacing_forces_emission (l : StackLayouter) (amt : Int)
    (hact : l.space.actions = []) (hboxes : l.sub.boxes = [])
    (hdims : l.sub.dimensions = Size2D.zero) (hhard : l.space.hard = false)
    (hamt : 0 < amt) (husable : 0 < l.sub.usable.y) :
    (l.add_space amt SpaceKind.Hard).space_is_empty = false ∧
      ∃ d, (l.add_space amt SpaceKind.Hard).finish = l.layouts ++ [Layout.mk d [] true] := by
  have hdy : l.sub.dimensions.y = 0 := by
    rw [hdims]
    rfl
  have hypos : 0 < (l.add_space amt SpaceKind.Hard).sub.dimensions.y := by
    rw [add_space_hard_y, hdy]
    omega
  have hne : (l.add_space amt SpaceKind.Hard).sub.dimensions ≠ Size2D.zero := by
    intro hh
    rw [hh] at hypos
    exact absurd hypos (by decide)
  have hempty : (l.add_space amt SpaceKind.Hard).space_is_empty = false := by
    unfold StackLayouter.space_is_empty
    simp [hne]
  refine ⟨hempty, ?_⟩
  unfold StackLayouter.finish
  have hcond : ((l.add_space amt SpaceKind.Hard).space.hard ||
      !(l.add_space amt SpaceKind.Hard).space_is_empty) = true := by
    rw [hempty, add_space_space, hhard]
    rfl
  rw [if_pos hcond]
  refine ⟨if (l.add_space amt SpaceKind.Hard).ctx.expand
      then ((l.add_space amt SpaceKind.Hard).ctx.spaces.getD
        (l.add_space amt SpaceKind.Hard).space.index LayoutSpace.zero).dimensions
      else ((l.add_space amt SpaceKind.Hard).finish_subspace.space.combined_dimensions.padded
        ((l.add_space amt SpaceKind.Hard).ctx.spaces.getD
          (l.add_space amt SpaceKind.Hard).space.index LayoutSpace.zero).padding), ?_⟩
  rw [finish_space_emits, add_space_layouts,
    finish_subspace_actions_nil (l.add_space amt SpaceKind.Hard)
      (by rw [add_space_space]; exact hact) (by rw [add_space_sub_boxes]; exact hboxes)]

/-- C9 witness: a fresh second space with hard flag false (obtained
by force-finalizing the first of two 100×100 areas), hard spacing 30:
the space is no longer empty and `finish` emits a second layout with no
placement instructions. -/
theorem c9_witness :
    (freshSoftSpace.add_space 30 SpaceKind.Hard).space_is_empty = false ∧
      ∃ d, (freshSoftSpace.add_space 30 SpaceKind.Hard).finish =
        freshSoftSpace.layouts ++ [Layout.mk d [] true] :=
  c9_hard_spacing_forces_emission freshSoftSpace 30 rfl rfl rfl rfl (by decide) (by decide)

/-- C10 (confirmed).  When pending soft spacing is materialized at
the start of `add` and the box then overflows into the next area, the
materialized spacing is discarded: the fresh subspace starts in the
`Forbidden` spacing state, and after the insertion the subspace holds the
box alone at offset 0 with used extent exactly the box's generalized
extent (and state `Allowed`). -/
theorem c10_overflow_discards_spacing (l : StackLayouter) (amt : Int) (box : Layout)
    (hsoft : l.sub.space = LastSpacing.Soft amt)
    (hnofit : fits (l.add_space amt SpaceKind.Hard).sub.usable
        ((l.add_space amt SpaceKind.Hard).tentative box) = false)
    (hnotlast : l.space_is_last = false)
    (hfit : fits (l.usableAt l.next_space) (l.boxSize box) = true) :
    (l.add box).map (fun r => (r.sub.dimensions, r.sub.space, r.sub.boxes)) =
      Except.ok (l.boxSize box, LastSpacing.Allowed,
        [(0, l.ctx.axes.primary.anchor (l.boxSize box).x, box)]) ∧
      ∀ o u a, (Subspace.new o u a).space = LastSpacing.Forbidden := by
  refine ⟨?_, fun o u a => rfl⟩
  have hmat : l.materialize = l.add_space amt SpaceKind.Hard := by
    unfold StackLayouter.materialize
    rw [hsoft]
  have hMctx : (l.add_space amt SpaceKind.Hard).ctx = l.ctx := add_space_ctx l amt _
  have hMsp : (l.add_space amt SpaceKind.Hard).space = l.space := add_space_space l amt _
  have hbs : (l.add_space amt SpaceKind.Hard).boxSize box = l.boxSize box := by
    unfold StackLayouter.boxSize
    rw [hMctx]
  have hlast : (l.add_space amt SpaceKind.Hard).space_is_last = false := by
    unfold StackLayouter.space_is_last at hnotlast ⊢
    rw [hMctx, hMsp]
    exact hnotlast
  have hnext : (l.add_space amt SpaceKind.Hard).next_space = l.next_space := by
    unfold StackLayouter.next_space
    rw [hMctx, hMsp]
  have husat : (l.add_space amt SpaceKind.Hard).usableAt = l.usableAt :=
    usableAt_congr _ _ hMctx
  rw [add_def, hmat,
    show (l.add_space amt SpaceKind.Hard).ctx.spaces.length + 2 =
      ((l.add_space amt SpaceKind.Hard).ctx.spaces.length + 1) + 1 from rfl,
    addLoop_succ]
  simp only [hnofit, Bool.false_eq_true, if_false, hlast, Bool.false_and]
  rw [addLoop_succ]
  have hfit2 : fits ((l.add_space amt SpaceKind.Hard).finish_space true).sub.usable
      ((l.add_space amt SpaceKind.Hard).boxSize box) = true := by
    rw [finish_space_sub_usable,
      show (l.add_space amt SpaceKind.Hard).ctx.axes.generalize
          (((l.add_space amt SpaceKind.Hard).ctx.spaces.getD
            (l.add_space amt SpaceKind.Hard).next_space LayoutSpace.zero).usable) =
        (l.add_space amt SpaceKind.Hard).usableAt
          (l.add_space amt SpaceKind.Hard).next_space from rfl,
      husat, hnext, hbs]
    exact hfit
  rw [if_pos hfit2]
  simp only [Except.map]
  rw [show ((l.add_space amt SpaceKind.Hard).finish_space true).sub.boxes = [] from rfl,
    show ((l.add_space amt SpaceKind.Hard).finish_space true).sub.dimensions.y = 0 from rfl,
    show ((l.add_space amt SpaceKind.Hard).finish_space true).ctx.axes = l.ctx.axes from
      congrArg StackContext.axes hMctx, hbs]
  rfl

/-- C10 witness: a 30×40 box then pending soft 50 in the first of two
100×100 areas; a 50×70 box overflows (40 + 50 + 70 > 100), lands alone in
the second space at offset 0 with used extent 50×70 and state
`Allowed`. -/
theorem c10_witness :
    (afterBoxSoft.add box50x70).map (fun r => (r.sub.dimensions, r.sub.space, r.sub.boxes)) =
      Except.ok (⟨50, 70⟩, LastSpacing.Allowed, [(0, 0, box50x70)]) :=
  (c10_overflow_discards_spacing afterBoxSoft 50 box50x70 (by decide) (by decide) (by decide)
    (by decide)).1

end Typst
